import Mathlib

/-!
Verification of the MusicStream repository-to-library import/synchronization
engine against its natural-language specification.

The development shallowly embeds the relevant TypeScript code:
  * `src/services/githubService.ts` (repository scanner, name normalization,
    unique-link derivation),
  * the import flow of `AddStreamingLinkModal.handleSubmit`,
  * `AdminBulkImportModal.findOrCreateSong`,
  * `LibraryPage.findOrCreateSong` and `LibraryPage.handleRefreshSource`,
together with the persistence layer as an explicit database state
(`streaming_sources`, `playlists`, `songs` tables; the `songs.unique_link`
UNIQUE constraint from the migrations is enforced by the model's insert).

Remote fetches are modelled by an explicit fetcher function
`String → Except String (List GitHubContent)` mapping a path to the listing
of that path (the empty path is the repository root), so that success and
failure of individual listing requests are inputs to the model.
-/

/-! ## Character and string helpers

String manipulation is done over `List Char` so that everything reduces
well in the kernel.  JavaScript string primitives used by the source
(`trim`, `toLowerCase`, `endsWith`, regex character classes) are modelled
for the ASCII range, which is the range the source's own regexes target. -/

/-- Whitespace recognized by `String.prototype.trim` (ASCII portion). -/
def isSpaceChar (c : Char) : Bool :=
  c == ' ' || c == '\t' || c == '\n' || c == '\r'

/-- Model of JavaScript `s.trim()`: strip whitespace from both ends. -/
def trimString (s : String) : String :=
  ⟨((s.data.dropWhile isSpaceChar).reverse.dropWhile isSpaceChar).reverse⟩

/-- Model of JavaScript `s.toLowerCase()` (ASCII range). -/
def lowerString (s : String) : String :=
  ⟨s.data.map Char.toLower⟩

/-- Model of JavaScript `s.endsWith(suffix)`. -/
def strEndsWith (s suffix : String) : Bool :=
  suffix.data.isSuffixOf s.data

/-- The regex character class `\w`, i.e. `[A-Za-z0-9_]`. -/
def isWordChar (c : Char) : Bool :=
  ('a' ≤ c && c ≤ 'z') || ('A' ≤ c && c ≤ 'Z') || ('0' ≤ c && c ≤ '9') || c == '_'

/-! ## GitHubService (src/services/githubService.ts) -/

/-- One entry of a repository content listing, as returned by the remote
content-listing API (`{name, path, type, download_url, size}`).
`download_url` is `none` when the JSON field is absent or `null`;
`size` is `none` when absent. -/
structure GitHubContent where
  name : String
  path : String
  type : String
  download_url : Option String
  size : Option Nat
deriving Repr, DecidableEq

/-- `GitHubService.AUDIO_EXTENSIONS`. -/
def AUDIO_EXTENSIONS : List String :=
  [".mp3", ".wav", ".flac", ".aac", ".ogg", ".m4a", ".wma"]

/-- The audio-file filter of `scanRepositoryStructure`:
`item.type === 'file' && AUDIO_EXTENSIONS.some(ext => item.name.toLowerCase().endsWith(ext))`. -/
def isAudioFile (item : GitHubContent) : Bool :=
  item.type == "file" &&
    AUDIO_EXTENSIONS.any (fun ext => strEndsWith (lowerString item.name) ext)

/-- JavaScript truthiness of the `download_url` value used by the
`if (file.download_url)` guard: `null`/absent and the empty string are falsy. -/
def urlTruthy : Option String → Bool
  | none => false
  | some s => s != ""

/-- Model of the regex replace `filename.replace(/\.[^/.]+$/, '')` in
`extractSongTitle`: the extension (a final `.` followed by one or more
characters none of which is `.` or `/`) is stripped when present. -/
def stripExtension (s : String) : String :=
  let rev := s.data.reverse
  let ext := rev.takeWhile (fun c => c != '.' && c != '/')
  match rev.drop ext.length with
  | '.' :: rest => if ext.isEmpty then s else ⟨rest.reverse⟩
  | _ => s

/-- Model of `cleaned.replace(/[_-]/g, ' ')`: every underscore and hyphen
becomes a space. -/
def replaceSeparators (s : String) : String :=
  ⟨s.data.map (fun c => if c == '_' || c == '-' then ' ' else c)⟩

/-- Model of `cleaned.replace(/\b\w/g, l => l.toUpperCase())`: a word
character is uppercased exactly when the previous character is not a word
character (or it is the first character).  The boolean argument records
whether the previous character was a word character. -/
def capAux : Bool → List Char → List Char
  | _, [] => []
  | prev, c :: cs =>
    (if isWordChar c && !prev then c.toUpper else c) :: capAux (isWordChar c) cs

/-- String-level wrapper of `capAux` starting at a word boundary. -/
def capitalizeWordStarts (s : String) : String :=
  ⟨capAux false s.data⟩

/-- `GitHubService.extractSongTitle`. -/
def extractSongTitle (filename : String) : String :=
  capitalizeWordStarts (replaceSeparators (stripExtension filename))

/-- `GitHubService.formatPlaylistName`. -/
def formatPlaylistName (dirname : String) : String :=
  capitalizeWordStarts (replaceSeparators dirname)

/-- The base64 alphabet used by `btoa`. -/
def b64Alphabet : List Char :=
  "ABCDEFGHIJKLMNOPQRSTUVWXYZabcdefghijklmnopqrstuvwxyz0123456789+/".data

/-- Digit lookup in the base64 alphabet. -/
def b64Char (n : Nat) : Char := b64Alphabet.getD n 'A'

/-- Standard base64 encoding of a byte sequence, with `=` padding,
processing three bytes at a time. -/
def base64Chunks : List Nat → List Char
  | [] => []
  | [a] => [b64Char (a / 4), b64Char (a % 4 * 16), '=', '=']
  | [a, b] => [b64Char (a / 4), b64Char (a % 4 * 16 + b / 16), b64Char (b % 16 * 4), '=']
  | a :: b :: c :: rest =>
    b64Char (a / 4) :: b64Char (a % 4 * 16 + b / 16) ::
      b64Char (b % 16 * 4 + c / 64) :: b64Char (c % 64) :: base64Chunks rest

/-- Model of the browser `btoa` on its valid inputs (code points ≤ 255,
which is the case for the repository identifiers the app feeds it):
base64 of the code-point bytes. -/
def btoa (s : String) : String :=
  ⟨base64Chunks (s.data.map Char.toNat)⟩

/-- Modelled from the spec: `window.location.origin`, the fixed
application-link scheme prefix of §4.2, an ambient constant of the
browser session not present under src/. -/
def windowLocationOrigin : String := "https://musicstream.app"

/-- `GitHubService.generateUniqueLink`. -/
def generateUniqueLink (owner repo filePath : String) : String :=
  windowLocationOrigin ++ "/play/" ++ btoa (owner ++ "/" ++ repo ++ "/" ++ filePath)

/-- Harness recording that `generateUniqueLink` is evaluated in an ambient
context (call count, wall-clock time, the file's content bytes, size and
last-modified timestamp) none of which the function reads: its body passes
only the three string arguments on. -/
def generateUniqueLinkCtx (owner repo filePath : String)
    (_callCount _time _sizeBytes _timestamp : Nat) (_content : List Nat) : String :=
  generateUniqueLink owner repo filePath

/-! ### URL parsing -/

/-- Strip a trailing `.git` (`repo.replace(/\.git$/, '')`). -/
def stripDotGit (s : String) : String :=
  if strEndsWith s ".git" then ⟨s.data.take (s.data.length - 4)⟩ else s

/-- Attempt the capture groups of `github\.com\/([^\/]+)\/([^\/]+)` at a
position directly after the literal `github.com/`. -/
def parseOwnerRepoAux (cs : List Char) : Option (String × String) :=
  let owner := cs.takeWhile (fun c => c != '/')
  if owner.isEmpty then none
  else
    match cs.drop owner.length with
    | '/' :: rest =>
      let repo := rest.takeWhile (fun c => c != '/')
      if repo.isEmpty then none else some (⟨owner⟩, stripDotGit ⟨repo⟩)
    | _ => none

/-- The literal part of the `parseGitHubUrl` regex. -/
def githubComSlash : List Char := "github.com/".data

/-- Scan for the first position where the whole regex
`github\.com\/([^\/]+)\/([^\/]+)` matches. -/
def parseFrom : List Char → Option (String × String)
  | [] => none
  | c :: cs =>
    if githubComSlash.isPrefixOf (c :: cs) then
      match parseOwnerRepoAux ((c :: cs).drop githubComSlash.length) with
      | some r => some r
      | none => parseFrom cs
    else parseFrom cs

/-- `GitHubService.parseGitHubUrl`. -/
def parseGitHubUrl (url : String) : Option (String × String) :=
  parseFrom url.data

/-- The regex character class `[\w\-\.]` of the modal's URL validation. -/
def isUrlWordChar (c : Char) : Bool :=
  isWordChar c || c == '-' || c == '.'

/-- Model of `/^https:\/\/github\.com\/[\w\-\.]+\/[\w\-\.]+/.test(url)` in
`AddStreamingLinkModal.handleSubmit`. -/
def validGithubUrlFormat (s : String) : Bool :=
  "https://github.com/".data.isPrefixOf s.data &&
    (let rest := s.data.drop "https://github.com/".data.length
     let a := rest.takeWhile isUrlWordChar
     !a.isEmpty &&
       match rest.drop a.length with
       | '/' :: r2 => !(r2.takeWhile isUrlWordChar).isEmpty
       | _ => false)

/-! ### Scanning -/

/-- One song of the in-memory catalog produced by the scanner. -/
structure SongEntry where
  name : String
  path : String
  downloadUrl : String
  size : Nat
deriving Repr, DecidableEq

/-- One playlist candidate of the in-memory catalog. -/
structure PlaylistEntry where
  name : String
  path : String
  songs : List SongEntry
deriving Repr, DecidableEq

/-- The body of the per-directory loop of `scanRepositoryStructure` that
builds the `songs` array from a directory listing: filter audio files,
then keep those with a truthy `download_url`. -/
def songsOfEntries (entries : List GitHubContent) : List SongEntry :=
  (entries.filter isAudioFile).filterMap (fun f =>
    if urlTruthy f.download_url then
      some { name := extractSongTitle f.name
             path := f.path
             downloadUrl := f.download_url.getD ""
             size := f.size.getD 0 }
    else none)

/-- The tail of the per-directory loop: a playlist entry is produced only
when the directory yielded at least one song (`if (songs.length > 0)`). -/
def dirToPlaylist (dir : GitHubContent) (entries : List GitHubContent) :
    Option PlaylistEntry :=
  let songs := songsOfEntries entries
  if songs.length > 0 then
    some { name := formatPlaylistName dir.name, path := dir.path, songs := songs }
  else none

/-- `GitHubService.scanRepositoryStructure`, parameterized by the fetcher.
A failed root listing propagates as an error; a failed per-directory
listing is caught and that directory skipped (`catch … continue`). -/
def scanRepositoryStructure
    (fetch : String → Except String (List GitHubContent)) :
    Except String (List PlaylistEntry) :=
  match fetch "" with
  | .error e => .error e
  | .ok rootContents =>
    let directories := rootContents.filter (fun item => item.type == "dir")
    .ok (directories.filterMap (fun dir =>
      match fetch dir.path with
      | .error _ => none
      | .ok dirContents => dirToPlaylist dir dirContents))

/-! ## Persistence model

The relational state the import engine manipulates: tables
`streaming_sources`, `playlists`, `songs` of the migrations, with the
`songs.unique_link UNIQUE` constraint enforced by `insertSong`.  Row ids
are drawn from a single counter; timestamps are natural numbers supplied
by the caller (the value of `new Date()` / `Date.now()` at the call). -/

/-- A row of `streaming_sources` as used by the import engine. -/
structure SourceRow where
  id : Nat
  name : String
  driveLink : String
  createdBy : String
  lastSynced : Nat
deriving Repr, DecidableEq

/-- A row of `playlists`. -/
structure PlaylistRow where
  id : Nat
  userId : String
  sourceId : Nat
  name : String
  folderPath : String
deriving Repr, DecidableEq

/-- A row of `songs`. -/
structure SongRow where
  id : Nat
  playlistId : Nat
  title : String
  duration : Nat
  filePath : String
  uniqueLink : String
deriving Repr, DecidableEq

/-- The database state. -/
structure DB where
  sources : List SourceRow
  playlists : List PlaylistRow
  songs : List SongRow
  nextId : Nat
deriving Repr, DecidableEq

/-- The empty database. -/
def emptyDB : DB := ⟨[], [], [], 0⟩

/-- Point lookup `songs.select().eq('unique_link', link)` (the constraint
guarantees at most one row, so `.single()` returns the first). -/
def findSongByLink (db : DB) (link : String) : Option SongRow :=
  db.songs.find? (fun s => s.uniqueLink == link)

/-- Whether some song row already carries the given `unique_link`. -/
def songLinkExists (db : DB) (link : String) : Bool :=
  db.songs.any (fun s => s.uniqueLink == link)

/-- INSERT into `songs`, enforcing the `unique_link` UNIQUE constraint:
on conflict the insert fails (the callers log the error and skip the
song), returning `none` and leaving the state unchanged. -/
def insertSong (db : DB) (pid : Nat) (title : String) (dur : Nat)
    (fp link : String) : Option Nat × DB :=
  if songLinkExists db link then (none, db)
  else
    (some db.nextId,
     { db with
        songs := db.songs ++ [⟨db.nextId, pid, title, dur, fp, link⟩],
        nextId := db.nextId + 1 })

/-- INSERT into `playlists` (no relevant constraint; always succeeds). -/
def insertPlaylist (db : DB) (uid : String) (sid : Nat)
    (name fp : String) : Nat × DB :=
  (db.nextId,
   { db with
      playlists := db.playlists ++ [⟨db.nextId, uid, sid, name, fp⟩],
      nextId := db.nextId + 1 })

/-- INSERT into `streaming_sources`. -/
def insertSource (db : DB) (name link createdBy : String) (now : Nat) :
    Nat × DB :=
  (db.nextId,
   { db with
      sources := db.sources ++ [⟨db.nextId, name, link, createdBy, now⟩],
      nextId := db.nextId + 1 })

/-- Point lookup of a source by exact `drive_link` match
(`streaming_sources.select().eq('drive_link', link)`, first row used). -/
def findSourceByLink (db : DB) (link : String) : Option SourceRow :=
  db.sources.find? (fun s => s.driveLink == link)

/-! ## AddStreamingLinkModal.handleSubmit (single-source import) -/

/-- Outcome of the single-source import, one constructor per distinct
thrown error of `AddStreamingLinkModal.handleSubmit` plus success. -/
inductive ImportResult where
  | invalidUrlFormat
  | alreadyImported
  | scanFailed (e : String)
  | noPlayableContent
  | ok (playlistsCreated songsCreated : Nat)
deriving Repr, DecidableEq

/-- The idempotence-guard query of `handleSubmit`: sources with the given
`drive_link` inner-joined with playlists of the requesting user. -/
def userOwnsPlaylistOnSource (db : DB) (userId link : String) : Bool :=
  db.sources.any (fun s =>
    s.driveLink == link &&
      db.playlists.any (fun p => p.sourceId == s.id && p.userId == userId))

/-- The inner song loop of `handleSubmit`: every song is inserted with the
per-user, per-time stored link
`` `${uniqueLink}_${user.id}_${Date.now()}` `` ("Each user gets their own
copy of songs"); a failed insert is logged and skipped.  Returns the count
of created songs and the updated state. -/
def addSongsForPlaylist (pid : Nat) (owner repo userId : String) (now : Nat) :
    DB → List SongEntry → Nat → Nat × DB
  | db, [], acc => (acc, db)
  | db, song :: rest, acc =>
    let stored := generateUniqueLink owner repo song.path
      ++ "_" ++ userId ++ "_" ++ toString now
    match insertSong db pid song.name 180 song.downloadUrl stored with
    | (some _, db') => addSongsForPlaylist pid owner repo userId now db' rest (acc + 1)
    | (none, db') => addSongsForPlaylist pid owner repo userId now db' rest acc

/-- The playlist loop of `handleSubmit`: create a playlist row for the
requesting user, then its songs.  Returns the counts of created playlists
and songs and the updated state. -/
def addPlaylistsSingle (userId : String) (sid : Nat) (owner repo : String)
    (now : Nat) : DB → List PlaylistEntry → Nat → Nat → (Nat × Nat) × DB
  | db, [], pAcc, sAcc => ((pAcc, sAcc), db)
  | db, pl :: rest, pAcc, sAcc =>
    let r := insertPlaylist db userId sid pl.name pl.path
    let r2 := addSongsForPlaylist r.1 owner repo userId now r.2 pl.songs 0
    addPlaylistsSingle userId sid owner repo now r2.2 rest (pAcc + 1) (sAcc + r2.1)

/-- `AddStreamingLinkModal.handleSubmit`, from URL validation through the
database writes: validate and parse the URL, run the idempotence guard,
find-or-create the shared source, scan the repository, and on a nonempty
catalog create the user's playlists and songs.  Note the source row is
resolved-or-created before the scan runs. -/
def addStreamingLinkImport (db : DB) (userId name githubLink : String)
    (fetch : String → Except String (List GitHubContent)) (now : Nat) :
    ImportResult × DB :=
  let link := trimString githubLink
  if !validGithubUrlFormat link then (.invalidUrlFormat, db)
  else
    match parseGitHubUrl link with
    | none => (.invalidUrlFormat, db)
    | some (owner, repo) =>
      if userOwnsPlaylistOnSource db userId link then (.alreadyImported, db)
      else
        let r :=
          match findSourceByLink db link with
          | some s => (s.id, db)
          | none => insertSource db (trimString name) link userId now
        match scanRepositoryStructure fetch with
        | .error e => (.scanFailed e, r.2)
        | .ok playlists =>
          if playlists.isEmpty then (.noPlayableContent, r.2)
          else
            let r2 := addPlaylistsSingle userId r.1 owner repo now r.2 playlists 0 0
            (.ok r2.1.1 r2.1.2, r2.2)

/-! ## AdminBulkImportModal.findOrCreateSong (bulk-import path) -/

/-- `AdminBulkImportModal.findOrCreateSong`: look up the derived
`uniqueLink`; when a row exists, re-point its `playlist_id` to the new
playlist; otherwise insert a fresh row with the derived link. -/
def bulkFindOrCreateSong (db : DB) (pid : Nat) (owner repo : String)
    (song : SongEntry) : Option Nat × DB :=
  let link := generateUniqueLink owner repo song.path
  match findSongByLink db link with
  | some existing =>
    (some existing.id,
     { db with
        songs := db.songs.map (fun s =>
          if s.id == existing.id then { s with playlistId := pid } else s) })
  | none => insertSong db pid song.name 180 song.downloadUrl link

/-! ## LibraryPage.findOrCreateSong and handleRefreshSource (refresh path) -/

/-- The `songData` record built by `handleRefreshSource` for each song. -/
structure SongData where
  title : String
  duration : Nat
  filePath : String
  uniqueLink : String
deriving Repr, DecidableEq

/-- `LibraryPage.findOrCreateSong`: look up the `unique_link`; an existing
row already in this playlist is returned as-is; an existing row in a
different playlist is skipped ("to avoid conflicts"), returning `none`;
otherwise a fresh row is inserted. -/
def refreshFindOrCreateSong (db : DB) (pid : Nat) (sd : SongData) :
    Option Nat × DB :=
  match findSongByLink db sd.uniqueLink with
  | some existing =>
    if existing.playlistId == pid then (some existing.id, db) else (none, db)
  | none => insertSong db pid sd.title sd.duration sd.filePath sd.uniqueLink

/-- Outcome of `LibraryPage.handleRefreshSource`. -/
inductive RefreshResult where
  | sourceNotFound
  | invalidUrl
  | scanFailed (e : String)
  | noNewPlaylists
  | ok (newPlaylists songsAdded : Nat)
deriving Repr, DecidableEq

/-- The `existingPaths.has(playlist.path)` test of `handleRefreshSource`:
whether the user already has a playlist with this `folder_path` for this
source. -/
def hasExistingPath (db : DB) (sid : Nat) (userId path : String) : Bool :=
  db.playlists.any (fun p =>
    p.sourceId == sid && p.userId == userId && p.folderPath == path)

/-- The song loop of `handleRefreshSource`: build `songData` with the
derived `uniqueLink` and run `LibraryPage.findOrCreateSong`, counting the
songs actually added or found in place. -/
def refreshAddSongs (pid : Nat) (owner repo : String) :
    DB → List SongEntry → Nat → Nat × DB
  | db, [], acc => (acc, db)
  | db, song :: rest, acc =>
    let sd : SongData :=
      { title := song.name, duration := 180, filePath := song.downloadUrl,
        uniqueLink := generateUniqueLink owner repo song.path }
    match refreshFindOrCreateSong db pid sd with
    | (some _, db') => refreshAddSongs pid owner repo db' rest (acc + 1)
    | (none, db') => refreshAddSongs pid owner repo db' rest acc

/-- The delta-playlist loop of `handleRefreshSource`. -/
def refreshAddPlaylists (userId : String) (sid : Nat) (owner repo : String) :
    DB → List PlaylistEntry → Nat → Nat × DB
  | db, [], acc => (acc, db)
  | db, pl :: rest, acc =>
    let r := insertPlaylist db userId sid pl.name pl.path
    let r2 := refreshAddSongs r.1 owner repo r.2 pl.songs 0
    refreshAddPlaylists userId sid owner repo r2.2 rest (acc + r2.1)

/-- UPDATE of `streaming_sources.last_synced` for one source. -/
def touchLastSynced (db : DB) (sid : Nat) (now : Nat) : DB :=
  { db with
     sources := db.sources.map (fun s =>
       if s.id == sid then { s with lastSynced := now } else s) }

/-- `LibraryPage.handleRefreshSource`: parse the source's link, re-scan,
diff the scanned playlists against the user's existing `folder_path` set
for this source, and when the delta is nonempty add the new playlists and
songs and touch `last_synced`.  An empty delta returns before the
`last_synced` update (`if (newPlaylistsToAdd.length === 0) { … return; }`). -/
def handleRefreshSource (db : DB) (userId : String) (sid : Nat)
    (fetch : String → Except String (List GitHubContent)) (now : Nat) :
    RefreshResult × DB :=
  match db.sources.find? (fun s => s.id == sid) with
  | none => (.sourceNotFound, db)
  | some src =>
    match parseGitHubUrl src.driveLink with
    | none => (.invalidUrl, db)
    | some (owner, repo) =>
      match scanRepositoryStructure fetch with
      | .error e => (.scanFailed e, db)
      | .ok newPlaylists =>
        let toAdd := newPlaylists.filter (fun pl =>
          !hasExistingPath db sid userId pl.path)
        if toAdd.isEmpty then (.noNewPlaylists, db)
        else
          let r := refreshAddPlaylists userId sid owner repo db toAdd 0
          (.ok toAdd.length r.1, touchLastSynced r.2 sid now)

/-! ## Derived notions used by the claims -/

/-- List-level prefix test on strings. -/
def strStartsWith (s pre : String) : Bool :=
  pre.data.isPrefixOf s.data

/-- Number of song rows whose stored `unique_link` equals the given value. -/
def songsWithLink (db : DB) (link : String) : Nat :=
  (db.songs.filter (fun s => s.uniqueLink == link)).length

/-- At most one song row exists per stored `unique_link` value — the
invariant the `songs.unique_link UNIQUE` constraint maintains. -/
def AtMostOnePerLink (db : DB) : Prop :=
  ∀ link, songsWithLink db link ≤ 1

/-- Number of song rows carrying a given derived `uniqueLink` identity
(§4.2): the stored value either equals the derived link (the bulk-import
and refresh paths store it verbatim) or is the derived link with the
single-import path's `_user_time` suffix appended. -/
def songsWithIdentity (db : DB) (link : String) : Nat :=
  (db.songs.filter (fun s =>
    s.uniqueLink == link || strStartsWith s.uniqueLink (link ++ "_"))).length

/-! ## Spec-side display-name transform

An independent rendering of the spec sentence "replacing `_`/`-` with
spaces, and title-casing each word": a word is a maximal run of word
characters, and title-casing a word uppercases its first character and
leaves the rest unchanged.  This definition is deliberately structured by
word runs, unlike the code's character-at-a-time regex replace, so that
proving the two equal is a genuine check. -/

/-- Modelled from the spec: title-case each word, where a word is a
maximal run of `\w` characters; characters outside words are kept. -/
def titleWords : List Char → List Char
  | [] => []
  | c :: cs =>
    if isWordChar c then
      c.toUpper :: (cs.takeWhile isWordChar ++ titleWords (cs.dropWhile isWordChar))
    else
      c :: titleWords cs
termination_by l => l.length
decreasing_by
  · simp only [List.length_cons]
    have h : (cs.dropWhile isWordChar).length ≤ cs.length := by
      induction cs with
      | nil => simp
      | cons a l ih =>
        by_cases hh : isWordChar a
        · simp only [List.dropWhile_cons, hh, if_true, List.length_cons]
          omega
        · simp [List.dropWhile_cons, hh]
    omega
  · simp

/-- String-level wrapper of `titleWords`. -/
def titleCaseWordsSpec (s : String) : String := ⟨titleWords s.data⟩

/-- The spec's song display name: extension stripped, separators replaced
by spaces, each word title-cased. -/
def specSongDisplayName (filename : String) : String :=
  titleCaseWordsSpec (replaceSeparators (stripExtension filename))

/-- The spec's playlist display name: the same transform applied to the
directory name (which carries no extension to strip). -/
def specPlaylistDisplayName (dirname : String) : String :=
  titleCaseWordsSpec (replaceSeparators dirname)

/-! ## Concrete fetchers and states used as test inputs -/

/-- A root directory entry `Rock_Hits`. -/
def rockDir : GitHubContent := ⟨"Rock_Hits", "Rock_Hits", "dir", none, none⟩

/-- An audio file inside `Rock_Hits` with a usable download URL. -/
def rockFile : GitHubContent :=
  ⟨"song_one.mp3", "Rock_Hits/song_one.mp3", "file", some "https://raw/x.mp3", some 10⟩

/-- A repository with one root directory `Rock_Hits` containing one audio
file with a usable download URL. -/
def fetchRock : String → Except String (List GitHubContent) := fun path =>
  if path == "" then .ok [rockDir]
  else if path == "Rock_Hits" then .ok [rockFile]
  else .error "404"

/-- The catalog `fetchRock` scans to. -/
def catRock : List PlaylistEntry :=
  [⟨"Rock Hits", "Rock_Hits",
    [⟨"Song One", "Rock_Hits/song_one.mp3", "https://raw/x.mp3", 10⟩]⟩]

/-- A repository whose root listing succeeds but is empty. -/
def fetchEmptyRepo : String → Except String (List GitHubContent) := fun _ => .ok []

/-- State after user `u1` imports the `fetchRock` repository. -/
def c1dbAfterU1 : DB :=
  (addStreamingLinkImport emptyDB "u1" "A" "https://github.com/alice/mymusic" fetchRock 5).2

/-- State after a second, different user `u2` imports the same repository. -/
def c1dbAfterU2 : DB :=
  (addStreamingLinkImport c1dbAfterU1 "u2" "B" "https://github.com/alice/mymusic" fetchRock 7).2

/-- A database holding one already-registered source for the `fetchRock`
repository and no playlists yet. -/
def c3db0 : DB :=
  { sources := [⟨0, "S", "https://github.com/alice/mymusic", "u1", 3⟩],
    playlists := [], songs := [], nextId := 1 }

/-- State after the first refresh of `c3db0` (at time 10). -/
def c3db1 : DB := (handleRefreshSource c3db0 "u1" 0 fetchRock 10).2

/-- State after a second refresh with no remote change (at time 20). -/
def c3db2 : DB := (handleRefreshSource c3db1 "u1" 0 fetchRock 20).2

/-- The derived unique link of the file `p.mp3` of repository `a/b`. -/
def c4link : String := generateUniqueLink "a" "b" "p.mp3"

/-- A song row for that link, currently owned by playlist 1. -/
def c4row : SongRow := ⟨0, 1, "T", 180, "f", c4link⟩

/-- A database holding exactly that song row. -/
def c4db : DB := { sources := [], playlists := [], songs := [c4row], nextId := 5 }

/-- The corresponding scanned song entry. -/
def c4song : SongEntry := ⟨"T", "p.mp3", "f", 1⟩

/-- The `songData` record the refresh path builds for `c4song`. -/
def c4sd : SongData := ⟨"T", 180, "f", c4link⟩

/-- The source row of the already-imported repository of claim 5. -/
def c5src : SourceRow := ⟨0, "S", "https://github.com/alice/mymusic", "u1", 3⟩

/-- A playlist user `u1` already owns against that source. -/
def c5pl : PlaylistRow := ⟨1, "u1", 0, "Rock Hits", "Rock_Hits"⟩

/-- A database where `u1` has already imported the repository. -/
def c5db : DB := { sources := [c5src], playlists := [c5pl], songs := [], nextId := 2 }

/-- An audio file whose `download_url` is null. -/
def nullUrlFile : GitHubContent := ⟨"x.mp3", "d/x.mp3", "file", none, some 1⟩

/-- A repository with one root directory `d` whose only entry is an audio
file with a null `download_url`. -/
def fetchNullUrl : String → Except String (List GitHubContent) := fun path =>
  if path == "" then .ok [⟨"d", "d", "dir", none, none⟩]
  else if path == "d" then .ok [nullUrlFile]
  else .error "404"

/-- Root directories of the partial-failure repository. -/
def dirA : GitHubContent := ⟨"A", "A", "dir", none, none⟩

/-- Root directory `B` whose listing fetch will fail. -/
def dirB : GitHubContent := ⟨"B", "B", "dir", none, none⟩

/-- Root directory `C`. -/
def dirC : GitHubContent := ⟨"C", "C", "dir", none, none⟩

/-- The audio file of directory `A`. -/
def fileA : GitHubContent := ⟨"a1.mp3", "A/a1.mp3", "file", some "https://raw/a1", some 1⟩

/-- The audio file of directory `C`. -/
def fileC : GitHubContent := ⟨"c1.ogg", "C/c1.ogg", "file", some "https://raw/c1", some 2⟩

/-- A repository whose directories `A` and `C` list successfully with
qualifying audio while the listing of `B` fails. -/
def fetchPartial : String → Except String (List GitHubContent) := fun path =>
  if path == "" then .ok [dirA, dirB, dirC]
  else if path == "A" then .ok [fileA]
  else if path == "B" then .error "403 rate limited"
  else if path == "C" then .ok [fileC]
  else .error "404"

/-- The catalog `fetchPartial` scans to: playlists for `A` and `C` only. -/
def catPartial : List PlaylistEntry :=
  [⟨"A", "A", [⟨"A1", "A/a1.mp3", "https://raw/a1", 1⟩]⟩,
   ⟨"C", "C", [⟨"C1", "C/c1.ogg", "https://raw/c1", 2⟩]⟩]

/-- The directory of the claim-8 example. -/
def c8dir : GitHubContent := ⟨"Rock_Hits", "Rock_Hits", "dir", none, none⟩

/-- Its listing: two audio files (one with an uppercase extension) and a
non-audio file. -/
def c8entries : List GitHubContent :=
  [⟨"song_one.mp3", "Rock_Hits/song_one.mp3", "file", some "https://raw/1", some 1⟩,
   ⟨"Song_Two.FLAC", "Rock_Hits/Song_Two.FLAC", "file", some "https://raw/2", some 2⟩,
   ⟨"notes.txt", "Rock_Hits/notes.txt", "file", some "https://raw/3", some 3⟩]

/-- The playlist entry the scan builds from that listing. -/
def c8pl : PlaylistEntry :=
  ⟨"Rock Hits", "Rock_Hits",
   [⟨"Song One", "Rock_Hits/song_one.mp3", "https://raw/1", 1⟩,
    ⟨"Song Two", "Rock_Hits/Song_Two.FLAC", "https://raw/2", 2⟩]⟩

/-! ## Basic preservation lemmas about the persistence operations -/

theorem insertSong_sources (db : DB) (pid : Nat) (t : String) (d : Nat)
    (fp l : String) : (insertSong db pid t d fp l).2.sources = db.sources := by
  unfold insertSong; split <;> rfl

theorem insertSong_playlists (db : DB) (pid : Nat) (t : String) (d : Nat)
    (fp l : String) : (insertSong db pid t d fp l).2.playlists = db.playlists := by
  unfold insertSong; split <;> rfl

theorem refreshFindOrCreateSong_sources (db : DB) (pid : Nat) (sd : SongData) :
    (refreshFindOrCreateSong db pid sd).2.sources = db.sources := by
  unfold refreshFindOrCreateSong
  cases findSongByLink db sd.uniqueLink with
  | none => exact insertSong_sources ..
  | some s => by_cases h : s.playlistId == pid <;> simp [h]

theorem refreshFindOrCreateSong_playlists (db : DB) (pid : Nat) (sd : SongData) :
    (refreshFindOrCreateSong db pid sd).2.playlists = db.playlists := by
  unfold refreshFindOrCreateSong
  cases findSongByLink db sd.uniqueLink with
  | none => exact insertSong_playlists ..
  | some s => by_cases h : s.playlistId == pid <;> simp [h]

theorem refreshAddSongs_sources (pid : Nat) (o r : String) :
    ∀ (songs : List SongEntry) (db : DB) (acc : Nat),
      (refreshAddSongs pid o r db songs acc).2.sources = db.sources := by
  intro songs
  induction songs with
  | nil => intro db acc; rfl
  | cons song rest ih =>
    intro db acc
    simp only [refreshAddSongs]
    rcases h : refreshFindOrCreateSong db pid
        { title := song.name, duration := 180, filePath := song.downloadUrl,
          uniqueLink := generateUniqueLink o r song.path } with ⟨res, db'⟩
    have hs : db'.sources = db.sources := by
      have := refreshFindOrCreateSong_sources db pid
        { title := song.name, duration := 180, filePath := song.downloadUrl,
          uniqueLink := generateUniqueLink o r song.path }
      rw [h] at this; exact this
    cases res <;> simp [h, ih, hs]

theorem refreshAddSongs_playlists (pid : Nat) (o r : String) :
    ∀ (songs : List SongEntry) (db : DB) (acc : Nat),
      (refreshAddSongs pid o r db songs acc).2.playlists = db.playlists := by
  intro songs
  induction songs with
  | nil => intro db acc; rfl
  | cons song rest ih =>
    intro db acc
    simp only [refreshAddSongs]
    rcases h : refreshFindOrCreateSong db pid
        { title := song.name, duration := 180, filePath := song.downloadUrl,
          uniqueLink := generateUniqueLink o r song.path } with ⟨res, db'⟩
    have hs : db'.playlists = db.playlists := by
      have := refreshFindOrCreateSong_playlists db pid
        { title := song.name, duration := 180, filePath := song.downloadUrl,
          uniqueLink := generateUniqueLink o r song.path }
      rw [h] at this; exact this
    cases res <;> simp [h, ih, hs]

theorem refreshAddPlaylists_sources (uid : String) (sid : Nat) (o r : String) :
    ∀ (pls : List PlaylistEntry) (db : DB) (acc : Nat),
      (refreshAddPlaylists uid sid o r db pls acc).2.sources = db.sources := by
  intro pls
  induction pls with
  | nil => intro db acc; rfl
  | cons pl rest ih =>
    intro db acc
    simp only [refreshAddPlaylists]
    rw [ih]
    rw [refreshAddSongs_sources]
    rfl

theorem refreshAddPlaylists_playlists_append (uid : String) (sid : Nat)
    (o r : String) :
    ∀ (pls : List PlaylistEntry) (db : DB) (acc : Nat),
      ∃ L, (refreshAddPlaylists uid sid o r db pls acc).2.playlists
        = db.playlists ++ L := by
  intro pls
  induction pls with
  | nil => intro db acc; exact ⟨[], by simp [refreshAddPlaylists]⟩
  | cons pl rest ih =>
    intro db acc
    simp only [refreshAddPlaylists]
    obtain ⟨L, hL⟩ := ih
      (refreshAddSongs (insertPlaylist db uid sid pl.name pl.path).1 o r
        (insertPlaylist db uid sid pl.name pl.path).2 pl.songs 0).2 (acc + _)
    refine ⟨⟨db.nextId, uid, sid, pl.name, pl.path⟩ :: L, ?_⟩
    rw [hL, refreshAddSongs_playlists]
    simp [insertPlaylist]

theorem hasExistingPath_of_mem {db : DB} {sid : Nat} {uid path : String}
    {row : PlaylistRow} (hmem : row ∈ db.playlists) (h1 : row.sourceId = sid)
    (h2 : row.userId = uid) (h3 : row.folderPath = path) :
    hasExistingPath db sid uid path = true := by
  unfold hasExistingPath
  rw [List.any_eq_true]
  exact ⟨row, hmem, by simp [h1, h2, h3]⟩

theorem refreshAddPlaylists_mem (uid : String) (sid : Nat) (o r : String)
    {row : PlaylistRow} :
    ∀ (pls : List PlaylistEntry) (db : DB) (acc : Nat), row ∈ db.playlists →
      row ∈ (refreshAddPlaylists uid sid o r db pls acc).2.playlists := by
  intro pls db acc hmem
  obtain ⟨L, hL⟩ := refreshAddPlaylists_playlists_append uid sid o r pls db acc
  rw [hL]
  exact List.mem_append_left _ hmem

theorem refreshAddPlaylists_cover (uid : String) (sid : Nat) (o r : String) :
    ∀ (pls : List PlaylistEntry) (db : DB) (acc : Nat) (pl : PlaylistEntry),
      pl ∈ pls →
      ∃ row ∈ (refreshAddPlaylists uid sid o r db pls acc).2.playlists,
        row.sourceId = sid ∧ row.userId = uid ∧ row.folderPath = pl.path := by
  intro pls
  induction pls with
  | nil => intro db acc pl h; cases h
  | cons hd rest ih =>
    intro db acc pl hmem
    simp only [refreshAddPlaylists]
    rcases List.mem_cons.mp hmem with heq | htail
    · subst heq
      refine ⟨⟨db.nextId, uid, sid, pl.name, pl.path⟩, ?_, rfl, rfl, rfl⟩
      apply refreshAddPlaylists_mem
      rw [refreshAddSongs_playlists]
      simp [insertPlaylist]
    · exact ih _ _ pl htail

theorem touchLastSynced_playlists (db : DB) (sid now : Nat) :
    (touchLastSynced db sid now).playlists = db.playlists := rfl

theorem touchLastSynced_find (db : DB) (sid now : Nat) :
    (touchLastSynced db sid now).sources.find? (fun s => s.id == sid)
      = (db.sources.find? (fun s => s.id == sid)).map
          (fun s => if s.id == sid then { s with lastSynced := now } else s) := by
  unfold touchLastSynced
  simp only []
  rw [List.find?_map]
  have hp : ((fun s : SourceRow => s.id == sid) ∘ fun s =>
      if s.id == sid then { s with lastSynced := now } else s)
        = fun s : SourceRow => s.id == sid := by
    funext s
    by_cases h : s.id == sid <;> simp [Function.comp, h]
  rw [hp]

theorem hasExistingPath_decomp {db : DB} {sid : Nat} {uid path : String}
    (h : hasExistingPath db sid uid path = true) :
    ∃ row ∈ db.playlists,
      row.sourceId = sid ∧ row.userId = uid ∧ row.folderPath = path := by
  unfold hasExistingPath at h
  obtain ⟨row, hmem, hrow⟩ := List.any_eq_true.mp h
  refine ⟨row, hmem, ?_⟩
  simp only [Bool.and_eq_true, beq_iff_eq] at hrow
  exact ⟨hrow.1.1, hrow.1.2, hrow.2⟩

theorem addSongsForPlaylist_sources (pid : Nat) (o r uid : String) (now : Nat) :
    ∀ (songs : List SongEntry) (db : DB) (acc : Nat),
      (addSongsForPlaylist pid o r uid now db songs acc).2.sources = db.sources := by
  intro songs
  induction songs with
  | nil => intro db acc; rfl
  | cons song rest ih =>
    intro db acc
    simp only [addSongsForPlaylist]
    rcases h : insertSong db pid song.name 180 song.downloadUrl
        (generateUniqueLink o r song.path ++ "_" ++ uid ++ "_" ++ toString now)
      with ⟨res, db'⟩
    have hs : db'.sources = db.sources := by
      have := insertSong_sources db pid song.name 180 song.downloadUrl
        (generateUniqueLink o r song.path ++ "_" ++ uid ++ "_" ++ toString now)
      rw [h] at this; exact this
    cases res <;> simp [h, ih, hs]

theorem addPlaylistsSingle_sources (uid : String) (sid : Nat) (o r : String)
    (now : Nat) :
    ∀ (pls : List PlaylistEntry) (db : DB) (pAcc sAcc : Nat),
      (addPlaylistsSingle uid sid o r now db pls pAcc sAcc).2.sources
        = db.sources := by
  intro pls
  induction pls with
  | nil => intro db pAcc sAcc; rfl
  | cons pl rest ih =>
    intro db pAcc sAcc
    simp only [addPlaylistsSingle]
    rw [ih, addSongsForPlaylist_sources]
    rfl

theorem songsWithLink_eq_zero {db : DB} {l : String}
    (h : songLinkExists db l = false) : songsWithLink db l = 0 := by
  unfold songsWithLink
  rw [List.length_eq_zero, List.filter_eq_nil_iff]
  intro s hmem hs
  unfold songLinkExists at h
  have hnone : ¬∃ s ∈ db.songs, (s.uniqueLink == l) = true := by
    intro hcontra
    rw [← List.any_eq_true] at hcontra
    rw [hcontra] at h
    cases h
  exact hnone ⟨s, hmem, hs⟩

theorem insertSong_atMostOne {db : DB} (h : AtMostOnePerLink db)
    (pid : Nat) (t : String) (d : Nat) (fp l : String) :
    AtMostOnePerLink (insertSong db pid t d fp l).2 := by
  unfold insertSong
  by_cases hex : songLinkExists db l
  · simpa [hex] using h
  · simp only [hex, Bool.false_eq_true, if_false]
    intro link
    unfold songsWithLink
    simp only [List.filter_append, List.length_append]
    by_cases hll : (l == link)
    · have hl : l = link := beq_iff_eq.mp hll
      have h0 : songsWithLink db link = 0 := by
        rw [← hl]
        exact songsWithLink_eq_zero (Bool.eq_false_iff.mpr hex)
      unfold songsWithLink at h0
      rw [h0]
      simp [hll]
    · have : songsWithLink db link ≤ 1 := h link
      unfold songsWithLink at this
      simp only [List.filter_cons, List.filter_nil]
      rw [Bool.eq_false_iff.mpr hll]  -- reduce the filter test on the new row
      simpa using this
  -- the new row's link equals l, so it matches the filter iff l == link

theorem bulkFindOrCreateSong_atMostOne {db : DB} (h : AtMostOnePerLink db)
    (pid : Nat) (owner repo : String) (song : SongEntry) :
    AtMostOnePerLink (bulkFindOrCreateSong db pid owner repo song).2 := by
  unfold bulkFindOrCreateSong
  cases hf : findSongByLink db (generateUniqueLink owner repo song.path) with
  | none =>
    simp only [hf]
    exact insertSong_atMostOne h pid song.name 180 song.downloadUrl
      (generateUniqueLink owner repo song.path)
  | some ex =>
    simp only [hf]
    intro link
    unfold songsWithLink
    have hcomp : ((fun s : SongRow => s.uniqueLink == link) ∘ fun s =>
        if s.id == ex.id then { s with playlistId := pid } else s)
          = fun s : SongRow => s.uniqueLink == link := by
      funext s
      by_cases hid : s.id == ex.id <;> simp [Function.comp, hid]
    simp only [List.filter_map, hcomp, List.length_map]
    exact h link

theorem refreshFindOrCreateSong_atMostOne {db : DB} (h : AtMostOnePerLink db)
    (pid : Nat) (sd : SongData) :
    AtMostOnePerLink (refreshFindOrCreateSong db pid sd).2 := by
  unfold refreshFindOrCreateSong
  cases hf : findSongByLink db sd.uniqueLink with
  | none =>
    simpa using insertSong_atMostOne h pid sd.title sd.duration sd.filePath sd.uniqueLink
  | some ex =>
    by_cases hpid : ex.playlistId == pid <;> simpa [hpid] using h

theorem addStreamingLinkImport_sources_of_exists (db : DB)
    (userId name githubLink : String)
    (fetch : String → Except String (List GitHubContent)) (now : Nat)
    (hex : (findSourceByLink db (trimString githubLink)).isSome) :
    (addStreamingLinkImport db userId name githubLink fetch now).2.sources
      = db.sources := by
  obtain ⟨s, hs⟩ := Option.isSome_iff_exists.mp hex
  unfold addStreamingLinkImport
  by_cases hv : validGithubUrlFormat (trimString githubLink)
  · simp only [hv, Bool.not_true, Bool.false_eq_true, if_false]
    cases hpr : parseGitHubUrl (trimString githubLink) with
    | none => rfl
    | some pr =>
      obtain ⟨owner, repo⟩ := pr
      simp only
      by_cases hg : userOwnsPlaylistOnSource db userId (trimString githubLink)
      · simp [hg]
      · simp only [hg, Bool.false_eq_true, if_false, hs]
        cases hsc : scanRepositoryStructure fetch with
        | error e => rfl
        | ok pls =>
          by_cases he : pls.isEmpty
          · simp [he]
          · simp only [he, Bool.false_eq_true, if_false]
            exact addPlaylistsSingle_sources userId s.id owner repo now pls db 0 0
  · simp [hv]

/-! ## Claim C9: determinism of the unique-link derivation -/

/-- C9: any two invocations of `generateUniqueLink` with identical
`(owner, repo, filePath)` return identical strings; the result is a pure
function of the three inputs (plus the fixed application-link prefix),
independent of call count, time, file content, size or timestamp. -/
theorem C9_generateUniqueLink_deterministic :
    ∀ (owner repo filePath : String)
      (c₁ t₁ s₁ ts₁ c₂ t₂ s₂ ts₂ : Nat) (content₁ content₂ : List Nat),
      generateUniqueLinkCtx owner repo filePath c₁ t₁ s₁ ts₁ content₁
        = generateUniqueLinkCtx owner repo filePath c₂ t₂ s₂ ts₂ content₂ := by
  intros
  rfl

/-! ## Claim C1: one Song row per uniqueLink across users -/

/-- C1 counterexample: two different users importing the same location URI
through the single-source import path end with one Source row but two Song
rows carrying the same derived uniqueLink identity (each stored with its
own `_user_time` suffix) — more than one Song row per uniqueLink. -/
theorem C1_two_users_two_song_rows_counterexample :
    songsWithIdentity c1dbAfterU2
        (generateUniqueLink "alice" "mymusic" "Rock_Hits/song_one.mp3") = 2 ∧
    c1dbAfterU2.sources.length = 1 := by
  decide

/-- C1 (amended): two different users importing the same location URI
still produce exactly one Source row (an import finding an existing source
reuses it and never writes to `streaming_sources`), and the bulk-import
and refresh song paths preserve "at most one Song row per stored
unique_link" (they insert only when no row with that link exists); the
single-source import path, however, stores a per-user, per-time suffixed
unique_link, so it creates one Song row per importing user for the same
derived uniqueLink rather than at most one. -/
theorem C1_amended_unique_links_and_source_reuse :
    (∀ (db : DB) (pid : Nat) (owner repo : String) (song : SongEntry),
      AtMostOnePerLink db →
        AtMostOnePerLink (bulkFindOrCreateSong db pid owner repo song).2) ∧
    (∀ (db : DB) (pid : Nat) (sd : SongData),
      AtMostOnePerLink db →
        AtMostOnePerLink (refreshFindOrCreateSong db pid sd).2) ∧
    (∀ (db : DB) (userId name githubLink : String)
      (fetch : String → Except String (List GitHubContent)) (now : Nat),
      (findSourceByLink db (trimString githubLink)).isSome →
        (addStreamingLinkImport db userId name githubLink fetch now).2.sources
          = db.sources) :=
  ⟨fun _db pid owner repo song h => bulkFindOrCreateSong_atMostOne h pid owner repo song,
   fun _db pid sd h => refreshFindOrCreateSong_atMostOne h pid sd,
   fun db userId name githubLink fetch now hex =>
     addStreamingLinkImport_sources_of_exists db userId name githubLink fetch now hex⟩

/-- Concrete instantiation of `C1_amended_unique_links_and_source_reuse`:
the two song paths on the empty database, and a second user's import
against the already-registered source of `c5db`. -/
theorem C1_amended_witness :
    AtMostOnePerLink (bulkFindOrCreateSong emptyDB 1 "a" "b" c4song).2 ∧
    AtMostOnePerLink (refreshFindOrCreateSong emptyDB 1 c4sd).2 ∧
    (addStreamingLinkImport c5db "u2" "N" "https://github.com/alice/mymusic"
        fetchRock 9).2.sources = c5db.sources :=
  ⟨C1_amended_unique_links_and_source_reuse.1 emptyDB 1 "a" "b" c4song
     (fun link => by simp [songsWithLink, emptyDB]),
   C1_amended_unique_links_and_source_reuse.2.1 emptyDB 1 c4sd
     (fun link => by simp [songsWithLink, emptyDB]),
   C1_amended_unique_links_and_source_reuse.2.2 c5db "u2" "N"
     "https://github.com/alice/mymusic" fetchRock 9 (by decide)⟩

/-! ## Claim C2: a NoPlayableContent import performs no writes -/

/-- C2 counterexample: an import whose scan yields zero playlist
candidates fails with the no-playable-content error, yet a Source row it
created before scanning remains — the failed call does write. -/
theorem C2_failed_import_leaves_source_counterexample :
    (addStreamingLinkImport emptyDB "u1" "Lib" "https://github.com/alice/mymusic"
        fetchEmptyRepo 5).1 = .noPlayableContent ∧
    (addStreamingLinkImport emptyDB "u1" "Lib" "https://github.com/alice/mymusic"
        fetchEmptyRepo 5).2.sources
      = [⟨0, "Lib", "https://github.com/alice/mymusic", "u1", 5⟩] ∧
    emptyDB.sources = [] := by
  decide

/-- C2 (amended): if the scan yields zero playlist candidates the import
fails with NoPlayableContent and creates or modifies no Playlist or Song
row; the Source row, however, is resolved-or-created before the scan runs,
so the failed call either leaves `streaming_sources` unchanged (source
already existed) or leaves behind exactly the one Source row it created. -/
theorem C2_amended_no_playable_content_writes (db : DB)
    (userId name githubLink : String)
    (fetch : String → Except String (List GitHubContent)) (now : Nat)
    (owner repo : String)
    (hv : validGithubUrlFormat (trimString githubLink) = true)
    (hpr : parseGitHubUrl (trimString githubLink) = some (owner, repo))
    (hg : userOwnsPlaylistOnSource db userId (trimString githubLink) = false)
    (hscan : scanRepositoryStructure fetch = .ok []) :
    (addStreamingLinkImport db userId name githubLink fetch now).1
      = .noPlayableContent ∧
    (addStreamingLinkImport db userId name githubLink fetch now).2.playlists
      = db.playlists ∧
    (addStreamingLinkImport db userId name githubLink fetch now).2.songs
      = db.songs ∧
    ((addStreamingLinkImport db userId name githubLink fetch now).2.sources
        = db.sources ∨
      ∃ srow, (addStreamingLinkImport db userId name githubLink fetch now).2.sources
        = db.sources ++ [srow]) := by
  unfold addStreamingLinkImport
  simp only [hv, Bool.not_true, Bool.false_eq_true, if_false, hpr, hg, hscan,
    List.isEmpty_nil, if_true]
  cases hf : findSourceByLink db (trimString githubLink) with
  | some s => simp [hf]
  | none =>
    simp only [hf]
    refine ⟨trivial, rfl, rfl, Or.inr ?_⟩
    exact ⟨⟨db.nextId, trimString name, trimString githubLink, userId, now⟩, rfl⟩

/-- Concrete instantiation of `C2_amended_no_playable_content_writes` on
the empty database with an audio-less repository. -/
theorem C2_amended_witness :
    (addStreamingLinkImport emptyDB "u1" "Lib" "https://github.com/alice/mymusic"
        fetchEmptyRepo 5).1 = .noPlayableContent ∧
    (addStreamingLinkImport emptyDB "u1" "Lib" "https://github.com/alice/mymusic"
        fetchEmptyRepo 5).2.playlists = emptyDB.playlists ∧
    (addStreamingLinkImport emptyDB "u1" "Lib" "https://github.com/alice/mymusic"
        fetchEmptyRepo 5).2.songs = emptyDB.songs ∧
    ((addStreamingLinkImport emptyDB "u1" "Lib" "https://github.com/alice/mymusic"
        fetchEmptyRepo 5).2.sources = emptyDB.sources ∨
      ∃ srow, (addStreamingLinkImport emptyDB "u1" "Lib"
          "https://github.com/alice/mymusic" fetchEmptyRepo 5).2.sources
        = emptyDB.sources ++ [srow]) :=
  C2_amended_no_playable_content_writes emptyDB "u1" "Lib"
    "https://github.com/alice/mymusic" fetchEmptyRepo 5 "alice" "mymusic"
    (by decide) (by decide) (by decide) rfl

/-! ## Claim C3: refresh monotonicity and the lastSyncedAt touch -/

/-- C3 counterexample: a first refresh at time 10 imports the repository
and sets `last_synced := 10`; a second refresh at time 20 with no remote
change creates zero new rows — but it returns before the `last_synced`
update, so the timestamp stays 10 instead of strictly increasing. -/
theorem C3_refresh_empty_delta_counterexample :
    (handleRefreshSource c3db0 "u1" 0 fetchRock 10).1 = .ok 1 1 ∧
    (handleRefreshSource c3db1 "u1" 0 fetchRock 20).1 = .noNewPlaylists ∧
    c3db2.playlists.length = c3db1.playlists.length ∧
    c3db2.songs.length = c3db1.songs.length ∧
    c3db1.sources.map (fun s => s.lastSynced) = [10] ∧
    c3db2.sources.map (fun s => s.lastSynced) = [10] := by
  decide

/-- C3 (amended): calling refresh twice in succession with no remote
change creates zero new Playlist and Song rows on the second call — the
second call leaves the database, `lastSyncedAt` included, entirely
unchanged, because a refresh finding an empty delta returns before the
`last_synced` update; `lastSyncedAt` is only set by a refresh that adds at
least one new playlist.  If the scan fails entirely, the refresh fails
with the scanner's error and the database (hence `lastSyncedAt`) is left
unmodified. -/
theorem C3_amended_refresh_monotone (db : DB) (userId : String) (sid : Nat)
    (fetch : String → Except String (List GitHubContent)) (now₁ now₂ : Nat)
    (src : SourceRow) (cat : List PlaylistEntry) (owner repo : String)
    (hsrc : db.sources.find? (fun s => s.id == sid) = some src)
    (hparse : parseGitHubUrl src.driveLink = some (owner, repo))
    (hscan : scanRepositoryStructure fetch = Except.ok cat) :
    (handleRefreshSource (handleRefreshSource db userId sid fetch now₁).2
        userId sid fetch now₂).2
      = (handleRefreshSource db userId sid fetch now₁).2 ∧
    (∀ (fetch' : String → Except String (List GitHubContent)) (e : String),
      scanRepositoryStructure fetch' = Except.error e →
      handleRefreshSource db userId sid fetch' now₂ = (.scanFailed e, db)) := by
  constructor
  case right =>
    intro fetch' e hscan'
    simp [handleRefreshSource, hsrc, hparse, hscan']
  case left =>
    by_cases hta : (cat.filter (fun pl => !hasExistingPath db sid userId pl.path)).isEmpty
    · have h1 : handleRefreshSource db userId sid fetch now₁ = (.noNewPlaylists, db) := by
        simp [handleRefreshSource, hsrc, hparse, hscan, hta]
      have h2 : handleRefreshSource db userId sid fetch now₂ = (.noNewPlaylists, db) := by
        simp [handleRefreshSource, hsrc, hparse, hscan, hta]
      rw [h1]
      simp only
      rw [h2]
    · have hta' : (cat.filter (fun pl =>
          !hasExistingPath db sid userId pl.path)).isEmpty = false := by
        revert hta
        cases (cat.filter (fun pl => !hasExistingPath db sid userId pl.path)).isEmpty <;> simp
      have h1 : handleRefreshSource db userId sid fetch now₁
          = (.ok (cat.filter (fun pl => !hasExistingPath db sid userId pl.path)).length
                (refreshAddPlaylists userId sid owner repo db
                  (cat.filter (fun pl => !hasExistingPath db sid userId pl.path)) 0).1,
             touchLastSynced
               (refreshAddPlaylists userId sid owner repo db
                 (cat.filter (fun pl => !hasExistingPath db sid userId pl.path)) 0).2
               sid now₁) := by
        simp [handleRefreshSource, hsrc, hparse, hscan, hta']
      rw [h1]
      simp only
      have hpid : (src.id == sid) = true := by
        have h := List.find?_some hsrc
        simpa using h
      have hsA : (refreshAddPlaylists userId sid owner repo db
          (cat.filter (fun pl => !hasExistingPath db sid userId pl.path)) 0).2.sources
            = db.sources :=
        refreshAddPlaylists_sources userId sid owner repo _ db 0
      have hfind : (touchLastSynced
          (refreshAddPlaylists userId sid owner repo db
            (cat.filter (fun pl => !hasExistingPath db sid userId pl.path)) 0).2
          sid now₁).sources.find? (fun s => s.id == sid)
            = some { src with lastSynced := now₁ } := by
        rw [touchLastSynced_find, hsA, hsrc]
        simp [beq_iff_eq.mp hpid]
      have hcov : ∀ pl ∈ cat,
          hasExistingPath (touchLastSynced
            (refreshAddPlaylists userId sid owner repo db
              (cat.filter (fun pl => !hasExistingPath db sid userId pl.path)) 0).2
            sid now₁) sid userId pl.path = true := by
        intro pl hpl
        by_cases hin : hasExistingPath db sid userId pl.path
        · obtain ⟨row, hrowmem, h1', h2', h3'⟩ := hasExistingPath_decomp hin
          refine hasExistingPath_of_mem ?_ h1' h2' h3'
          rw [touchLastSynced_playlists]
          exact refreshAddPlaylists_mem userId sid owner repo _ db 0 hrowmem
        · have hfalse : hasExistingPath db sid userId pl.path = false := by
            revert hin
            cases hasExistingPath db sid userId pl.path <;> simp
          have hmem : pl ∈ cat.filter (fun pl =>
              !hasExistingPath db sid userId pl.path) :=
            List.mem_filter.mpr ⟨hpl, by simp [hfalse]⟩
          obtain ⟨row, hrowmem, h1', h2', h3'⟩ :=
            refreshAddPlaylists_cover userId sid owner repo _ db 0 pl hmem
          refine hasExistingPath_of_mem ?_ h1' h2' h3'
          rw [touchLastSynced_playlists]
          exact hrowmem
      have hta2 : (cat.filter (fun pl =>
          !hasExistingPath (touchLastSynced
            (refreshAddPlaylists userId sid owner repo db
              (cat.filter (fun pl => !hasExistingPath db sid userId pl.path)) 0).2
            sid now₁) sid userId pl.path)) = [] := by
        rw [List.filter_eq_nil_iff]
        intro pl hpl
        simp [hcov pl hpl]
      simp [handleRefreshSource, hfind, hparse, hscan, hta2]

/-- Concrete instantiation of `C3_amended_refresh_monotone` on the
registered source `c3db0` and the `fetchRock` repository. -/
theorem C3_amended_witness :
    (handleRefreshSource (handleRefreshSource c3db0 "u1" 0 fetchRock 10).2
        "u1" 0 fetchRock 20).2
      = (handleRefreshSource c3db0 "u1" 0 fetchRock 10).2 ∧
    (∀ (fetch' : String → Except String (List GitHubContent)) (e : String),
      scanRepositoryStructure fetch' = Except.error e →
      handleRefreshSource c3db0 "u1" 0 fetch' 20 = (.scanFailed e, c3db0)) :=
  C3_amended_refresh_monotone c3db0 "u1" 0 fetchRock 10 20
    ⟨0, "S", "https://github.com/alice/mymusic", "u1", 3⟩ catRock
    "alice" "mymusic" (by decide) (by decide) rfl

/-! ## Claim C4: the existing-song-elsewhere policy is not uniform -/

/-- C4 counterexample: from the same state `c4db`, holding one song row
for the derived link of `p.mp3` currently in playlist 1, the bulk-import
path re-points the row to the new playlist 2 (policy "move") while the
refresh path leaves it in playlist 1 and returns nothing (policy "skip") —
the two import paths apply different policies. -/
theorem C4_policy_divergence_counterexample :
    (bulkFindOrCreateSong c4db 2 "a" "b" c4song).2.songs.map
        (fun s => s.playlistId) = [2] ∧
    (refreshFindOrCreateSong c4db 2 c4sd).2.songs.map
        (fun s => s.playlistId) = [1] ∧
    (refreshFindOrCreateSong c4db 2 c4sd).1 = none := by
  decide

/-- C4 (amended): the policy is not uniform across the import paths: when
the derived uniqueLink already exists under a different playlist, the
bulk-import `findOrCreateSong` re-points the existing row's `playlist_id`
to the new playlist, the refresh `findOrCreateSong` skips it and leaves
the association untouched, and the single-source import path never looks
the derived link up at all — it inserts a fresh row under a per-user,
per-time suffixed stored link. -/
theorem C4_amended_policies_per_path (db : DB) (pid : Nat)
    (owner repo : String) (song : SongEntry) (s : SongRow)
    (hfind : findSongByLink db (generateUniqueLink owner repo song.path) = some s)
    (hne : s.playlistId ≠ pid) :
    (bulkFindOrCreateSong db pid owner repo song).2.songs
        = db.songs.map (fun t =>
            if t.id == s.id then { t with playlistId := pid } else t) ∧
    refreshFindOrCreateSong db pid
        ⟨song.name, 180, song.downloadUrl, generateUniqueLink owner repo song.path⟩
      = (none, db) ∧
    ∀ (db' : DB) (userId : String) (now : Nat),
      songLinkExists db' (generateUniqueLink owner repo song.path
          ++ "_" ++ userId ++ "_" ++ toString now) = false →
      (addSongsForPlaylist pid owner repo userId now db' [song] 0).2.songs
        = db'.songs ++ [⟨db'.nextId, pid, song.name, 180, song.downloadUrl,
            generateUniqueLink owner repo song.path
              ++ "_" ++ userId ++ "_" ++ toString now⟩] := by
  refine ⟨?_, ?_, ?_⟩
  · simp only [bulkFindOrCreateSong, hfind]
  · simp [refreshFindOrCreateSong, hfind, hne]
  · intro db' userId now hnotex
    simp [addSongsForPlaylist, insertSong, hnotex]

/-- Concrete instantiation of `C4_amended_policies_per_path` at `c4db`. -/
theorem C4_amended_witness :
    (bulkFindOrCreateSong c4db 2 "a" "b" c4song).2.songs
        = c4db.songs.map (fun t =>
            if t.id == c4row.id then { t with playlistId := 2 } else t) ∧
    refreshFindOrCreateSong c4db 2
        ⟨c4song.name, 180, c4song.downloadUrl, generateUniqueLink "a" "b" c4song.path⟩
      = (none, c4db) ∧
    (addSongsForPlaylist 2 "a" "b" "u1" 5 c4db [c4song] 0).2.songs
      = c4db.songs ++ [⟨c4db.nextId, 2, c4song.name, 180, c4song.downloadUrl,
          generateUniqueLink "a" "b" c4song.path ++ "_" ++ "u1" ++ "_" ++ toString 5⟩] :=
  ⟨(C4_amended_policies_per_path c4db 2 "a" "b" c4song c4row (by decide)
      (by decide)).1,
   (C4_amended_policies_per_path c4db 2 "a" "b" c4song c4row (by decide)
      (by decide)).2.1,
   (C4_amended_policies_per_path c4db 2 "a" "b" c4song c4row (by decide)
      (by decide)).2.2 c4db "u1" 5 (by decide)⟩

/-! ## Claim C5: the import idempotence guard -/

/-- C5: if the requesting user already owns at least one playlist against
a source whose `drive_link` is the (trimmed) location URI, the import
fails with AlreadyImported and the database is returned unchanged — no
Source, Playlist or Song row is created.  The hypotheses mention only the
source and the user, not any folder path. -/
theorem C5_second_import_already_imported (db : DB)
    (userId name githubLink : String)
    (fetch : String → Except String (List GitHubContent)) (now : Nat)
    (s : SourceRow) (p : PlaylistRow)
    (hv : validGithubUrlFormat (trimString githubLink) = true)
    (hp : (parseGitHubUrl (trimString githubLink)).isSome)
    (hs : s ∈ db.sources) (hlink : s.driveLink = trimString githubLink)
    (hpmem : p ∈ db.playlists) (hpsid : p.sourceId = s.id)
    (hpuid : p.userId = userId) :
    addStreamingLinkImport db userId name githubLink fetch now
      = (.alreadyImported, db) := by
  obtain ⟨pr, hpr⟩ := Option.isSome_iff_exists.mp hp
  have hguard : userOwnsPlaylistOnSource db userId (trimString githubLink) = true := by
    unfold userOwnsPlaylistOnSource
    rw [List.any_eq_true]
    refine ⟨s, hs, ?_⟩
    rw [Bool.and_eq_true]
    refine ⟨beq_iff_eq.mpr hlink, ?_⟩
    rw [List.any_eq_true]
    exact ⟨p, hpmem, by
      rw [Bool.and_eq_true]
      exact ⟨beq_iff_eq.mpr hpsid, beq_iff_eq.mpr hpuid⟩⟩
  obtain ⟨owner, repo⟩ := pr
  simp [addStreamingLinkImport, hv, hpr, hguard]

/-- Concrete instantiation of `C5_second_import_already_imported`: user
`u1`, who already owns the `Rock Hits` playlist against the registered
source, re-imports the same location URI. -/
theorem C5_witness :
    addStreamingLinkImport c5db "u1" "Again" "https://github.com/alice/mymusic" fetchRock 9
      = (.alreadyImported, c5db) :=
  C5_second_import_already_imported c5db "u1" "Again"
    "https://github.com/alice/mymusic" fetchRock 9 c5src c5pl
    (by decide) (by decide) (by decide) (by decide) (by decide) (by decide) (by decide)

/-! ## Claim C6: when a directory becomes a playlist candidate -/

/-- C6 counterexample: a root directory whose listing contains a file with
a qualifying audio extension but a null `download_url` produces no
playlist candidate — the claimed "if" direction fails. -/
theorem C6_null_download_url_counterexample :
    isAudioFile nullUrlFile = true ∧
    fetchNullUrl "d" = .ok [nullUrlFile] ∧
    scanRepositoryStructure fetchNullUrl = .ok [] :=
  ⟨by decide, rfl, rfl⟩

/-- C6 (amended): for a scanned repository whose root directories have
distinct paths, a root-level directory whose listing is successfully
fetched appears as a playlist candidate if and only if its listing
contains at least one entry of kind "file" with a qualifying
(case-insensitive) audio extension AND a truthy `download_url` (present,
non-null, non-empty); a directory with no files, only non-audio files, or
only audio files lacking a usable `download_url` yields no Catalog entry,
and the scan completes without error. -/
theorem C6_amended_candidate_iff
    (fetch : String → Except String (List GitHubContent))
    (root entries : List GitHubContent) (dir : GitHubContent)
    (hroot : fetch "" = .ok root)
    (hnd : ((root.filter (fun i => i.type == "dir")).map (fun i => i.path)).Nodup)
    (hdirmem : dir ∈ root) (hdirty : dir.type = "dir")
    (hentries : fetch dir.path = .ok entries) :
    ∃ cat, scanRepositoryStructure fetch = .ok cat ∧
      ((∃ pl ∈ cat, pl.path = dir.path) ↔
        ∃ e ∈ entries, isAudioFile e = true ∧ urlTruthy e.download_url = true) := by
  refine ⟨(root.filter (fun item => item.type == "dir")).filterMap (fun dir' =>
      match fetch dir'.path with
      | .error _ => none
      | .ok dirContents => dirToPlaylist dir' dirContents), ?_, ?_, ?_⟩
  · simp [scanRepositoryStructure, hroot]
  · rintro ⟨pl, hpl, hpath⟩
    rw [List.mem_filterMap] at hpl
    obtain ⟨dir', hdir'mem, hg⟩ := hpl
    cases hf : fetch dir'.path with
    | error e => simp [hf] at hg
    | ok entries' =>
      simp only [hf] at hg
      have hplpath : pl.path = dir'.path := by
        unfold dirToPlaylist at hg
        by_cases hlen : (songsOfEntries entries').length > 0
        · simp only [hlen, if_true] at hg
          rw [← Option.some.inj hg]
        · simp [hlen] at hg
      have hdirfil : dir ∈ root.filter (fun i => i.type == "dir") :=
        List.mem_filter.mpr ⟨hdirmem, by simp [hdirty]⟩
      have heq : dir' = dir :=
        List.inj_on_of_nodup_map hnd hdir'mem hdirfil (by rw [← hplpath, hpath])
      subst heq
      rw [hentries] at hf
      have hent : entries' = entries := (Except.ok.inj hf).symm
      subst hent
      unfold dirToPlaylist at hg
      by_cases hlen : (songsOfEntries entries').length > 0
      · have hne : songsOfEntries entries' ≠ [] := by
          intro h0
          rw [h0] at hlen
          simp at hlen
        obtain ⟨sg, hsg⟩ := List.exists_mem_of_ne_nil _ hne
        unfold songsOfEntries at hsg
        rw [List.mem_filterMap] at hsg
        obtain ⟨f, hfmem, hbuild⟩ := hsg
        rw [List.mem_filter] at hfmem
        refine ⟨f, hfmem.1, hfmem.2, ?_⟩
        by_cases hu : urlTruthy f.download_url
        · exact hu
        · simp [hu] at hbuild
      · simp [hlen] at hg
  · rintro ⟨e, hemem, haudio, hurl⟩
    have hmemsong :
        (⟨extractSongTitle e.name, e.path, e.download_url.getD "", e.size.getD 0⟩
          : SongEntry) ∈ songsOfEntries entries := by
      unfold songsOfEntries
      rw [List.mem_filterMap]
      exact ⟨e, List.mem_filter.mpr ⟨hemem, haudio⟩, by simp [hurl]⟩
    have hlen : (songsOfEntries entries).length > 0 := by
      cases h : songsOfEntries entries with
      | nil => rw [h] at hmemsong; cases hmemsong
      | cons a l => simp [h]
    refine ⟨⟨formatPlaylistName dir.name, dir.path, songsOfEntries entries⟩, ?_, rfl⟩
    rw [List.mem_filterMap]
    refine ⟨dir, List.mem_filter.mpr ⟨hdirmem, by simp [hdirty]⟩, ?_⟩
    rw [hentries]
    simp only
    unfold dirToPlaylist
    simp [hlen]

/-- Concrete instantiation of `C6_amended_candidate_iff` at the
`fetchRock` repository and its single root directory. -/
theorem C6_amended_witness :
    ∃ cat, scanRepositoryStructure fetchRock = .ok cat ∧
      ((∃ pl ∈ cat, pl.path = rockDir.path) ↔
        ∃ e ∈ [rockFile], isAudioFile e = true ∧ urlTruthy e.download_url = true) :=
  C6_amended_candidate_iff fetchRock [rockDir] [rockFile] rockDir rfl
    (by decide) (by decide) (by decide) rfl

/-! ## Claim C7: partial-failure tolerance of the scan -/

/-- C7: whenever the root listing succeeds the scan returns a catalog (no
fatal error), and a playlist is in that catalog exactly when it comes from
a root directory whose own listing succeeded and yielded qualifying audio;
directories whose listing fetch fails are skipped without aborting the
scan of their siblings. -/
theorem C7_partial_failure_tolerance
    (fetch : String → Except String (List GitHubContent))
    (root : List GitHubContent) (hroot : fetch "" = .ok root) :
    ∃ cat, scanRepositoryStructure fetch = .ok cat ∧
      ∀ pl, pl ∈ cat ↔ ∃ dir ∈ root, dir.type = "dir" ∧
        ∃ entries, fetch dir.path = .ok entries ∧
          dirToPlaylist dir entries = some pl := by
  refine ⟨(root.filter (fun item => item.type == "dir")).filterMap (fun dir =>
      match fetch dir.path with
      | .error _ => none
      | .ok dirContents => dirToPlaylist dir dirContents), ?_, ?_⟩
  · simp [scanRepositoryStructure, hroot]
  · intro pl
    rw [List.mem_filterMap]
    constructor
    · rintro ⟨dir, hdirmem, hg⟩
      rw [List.mem_filter] at hdirmem
      cases hf : fetch dir.path with
      | error e => simp [hf] at hg
      | ok entries =>
        simp only [hf] at hg
        exact ⟨dir, hdirmem.1, by simpa using hdirmem.2, entries, hf, hg⟩
    · rintro ⟨dir, hdirmem, hty, entries, hf, hg⟩
      refine ⟨dir, List.mem_filter.mpr ⟨hdirmem, by simp [hty]⟩, ?_⟩
      rw [hf]
      exact hg

/-- Concrete instantiation of `C7_partial_failure_tolerance`: directory
`B`'s listing fails while `A` and `C` succeed with audio; the catalog
holds exactly the playlists of `A` and `C`. -/
theorem C7_witness :
    (∃ cat, scanRepositoryStructure fetchPartial = .ok cat ∧
      ∀ pl, pl ∈ cat ↔ ∃ dir ∈ [dirA, dirB, dirC], dir.type = "dir" ∧
        ∃ entries, fetchPartial dir.path = .ok entries ∧
          dirToPlaylist dir entries = some pl) ∧
    scanRepositoryStructure fetchPartial = .ok catPartial :=
  ⟨C7_partial_failure_tolerance fetchPartial [dirA, dirB, dirC] rfl, rfl⟩

/-! ## Claim C8: display-name normalization -/

theorem capAux_eq_titleWords : ∀ cs : List Char,
    capAux false cs = titleWords cs ∧
    capAux true cs
      = cs.takeWhile isWordChar ++ titleWords (cs.dropWhile isWordChar) := by
  intro cs
  induction cs with
  | nil => constructor <;> simp [capAux, titleWords]
  | cons c cs ih =>
    constructor <;> by_cases h : isWordChar c <;>
      simp [capAux, titleWords, h, ih.1, ih.2,
        List.takeWhile_cons, List.dropWhile_cons]

/-- C8: the song display name equals the spec transform — filename with
extension stripped, underscores and hyphens replaced by spaces, and each
word (maximal run of word characters) title-cased — and the playlist
display name is the same transform (minus extension stripping, directory
names carrying none) of the directory name; every song and playlist the
scan emits is named this way, and the spec's concrete example holds:
`Song_Two.FLAC` in folder `Rock_Hits` yields "Song Two" in "Rock Hits". -/
theorem C8_display_name_normalization :
    (∀ s, extractSongTitle s = specSongDisplayName s) ∧
    (∀ d, formatPlaylistName d = specPlaylistDisplayName d) ∧
    (∀ dir entries pl, dirToPlaylist dir entries = some pl →
      pl.name = specPlaylistDisplayName dir.name ∧
      ∀ sg ∈ pl.songs, ∃ f ∈ entries, isAudioFile f = true ∧
        sg.name = specSongDisplayName f.name) ∧
    extractSongTitle "Song_Two.FLAC" = "Song Two" ∧
    formatPlaylistName "Rock_Hits" = "Rock Hits" := by
  have hcap : ∀ s : String, capitalizeWordStarts s = titleCaseWordsSpec s := by
    intro s
    unfold capitalizeWordStarts titleCaseWordsSpec
    rw [(capAux_eq_titleWords s.data).1]
  refine ⟨?_, ?_, ?_, by decide, by decide⟩
  · intro s
    unfold extractSongTitle specSongDisplayName
    rw [hcap]
  · intro d
    unfold formatPlaylistName specPlaylistDisplayName
    rw [hcap]
  · intro dir entries pl hg
    unfold dirToPlaylist at hg
    by_cases hlen : (songsOfEntries entries).length > 0
    · simp only [hlen, if_true] at hg
      have hpl := Option.some.inj hg
      constructor
      · rw [← hpl]
        unfold formatPlaylistName specPlaylistDisplayName at *
        rw [hcap]
      · intro sg hsg
        rw [← hpl] at hsg
        unfold songsOfEntries at hsg
        rw [List.mem_filterMap] at hsg
        obtain ⟨f, hfmem, hbuild⟩ := hsg
        rw [List.mem_filter] at hfmem
        refine ⟨f, hfmem.1, hfmem.2, ?_⟩
        by_cases hu : urlTruthy f.download_url
        · simp only [hu, if_true] at hbuild
          rw [← Option.some.inj hbuild]
          unfold extractSongTitle specSongDisplayName
          rw [hcap]
        · simp [hu] at hbuild
    · simp [hlen] at hg

/-- Concrete instantiation of the catalog clause of
`C8_display_name_normalization` at the claim's example listing. -/
theorem C8_witness :
    c8pl.name = specPlaylistDisplayName c8dir.name ∧
    ∀ sg ∈ c8pl.songs, ∃ f ∈ c8entries, isAudioFile f = true ∧
      sg.name = specSongDisplayName f.name :=
  C8_display_name_normalization.2.2.1 c8dir c8entries c8pl (by decide)

/-! ## Claim C10: the download_url guard -/

theorem songsOfEntries_cons (f : GitHubContent) (rest : List GitHubContent) :
    songsOfEntries (f :: rest)
      = (if isAudioFile f && urlTruthy f.download_url then
          [⟨extractSongTitle f.name, f.path, f.download_url.getD "", f.size.getD 0⟩]
         else [])
        ++ songsOfEntries rest := by
  unfold songsOfEntries
  by_cases ha : isAudioFile f
  · by_cases hu : urlTruthy f.download_url
    · simp [List.filter_cons, ha, hu]
    · simp [List.filter_cons, ha, hu]
  · simp [List.filter_cons, ha]

theorem songsOfEntries_drop_null_url (entries : List GitHubContent) :
    songsOfEntries entries
      = songsOfEntries (entries.filter (fun f =>
          !(isAudioFile f && f.download_url.isNone))) := by
  induction entries with
  | nil => rfl
  | cons f rest ih =>
    rw [songsOfEntries_cons, List.filter_cons]
    by_cases hk : (!(isAudioFile f && f.download_url.isNone)) = true
    · rw [if_pos hk, songsOfEntries_cons, ih]
    · rw [if_neg hk, ← ih]
      have hk' : (isAudioFile f && f.download_url.isNone) = true := by
        revert hk
        cases isAudioFile f && f.download_url.isNone <;> simp
      have hn : f.download_url.isNone = true := ((Bool.and_eq_true _ _).mp hk').2
      have hu : urlTruthy f.download_url = false := by
        cases hd : f.download_url with
        | none => rfl
        | some v => rw [hd] at hn; simp at hn
      simp [hu]

/-- C10: an entry of kind "file" with a qualifying audio extension but an
absent or null `download_url` is silently excluded from a directory's song
list — filtering such entries out of the listing leaves the directory's
Catalog outcome unchanged, so the file cannot qualify its directory as a
playlist candidate — and every song the scan emits has a non-empty
`downloadUrl` (the JavaScript truthiness guard also drops an empty-string
URL). -/
theorem C10_download_url_guard :
    (∀ dir entries, dirToPlaylist dir entries
        = dirToPlaylist dir (entries.filter (fun f =>
            !(isAudioFile f && f.download_url.isNone)))) ∧
    (∀ (fetch : String → Except String (List GitHubContent))
        (cat : List PlaylistEntry), scanRepositoryStructure fetch = .ok cat →
      ∀ pl ∈ cat, ∀ sg ∈ pl.songs, ¬sg.downloadUrl = "") := by
  constructor
  · intro dir entries
    unfold dirToPlaylist
    rw [← songsOfEntries_drop_null_url]
  · intro fetch cat hscan pl hpl sg hsg
    unfold scanRepositoryStructure at hscan
    cases hroot : fetch "" with
    | error e => rw [hroot] at hscan; cases hscan
    | ok root =>
      rw [hroot] at hscan
      simp only [Except.ok.injEq] at hscan
      rw [← hscan] at hpl
      rw [List.mem_filterMap] at hpl
      obtain ⟨dir, hdirmem, hg⟩ := hpl
      cases hf : fetch dir.path with
      | error e => simp [hf] at hg
      | ok entries =>
        simp only [hf] at hg
        unfold dirToPlaylist at hg
        by_cases hlen : (songsOfEntries entries).length > 0
        · simp only [hlen, if_true] at hg
          rw [← Option.some.inj hg] at hsg
          unfold songsOfEntries at hsg
          rw [List.mem_filterMap] at hsg
          obtain ⟨f, hfmem, hbuild⟩ := hsg
          by_cases hu : urlTruthy f.download_url
          · simp only [hu, if_true] at hbuild
            rw [← Option.some.inj hbuild]
            cases hd : f.download_url with
            | none => rw [hd] at hu; cases hu
            | some v =>
              rw [hd] at hu
              have hv : ¬v = "" := by simpa [urlTruthy] using hu
              simpa [hd] using hv
          · simp [hu] at hbuild
        · simp [hlen] at hg

/-- Concrete instantiation of `C10_download_url_guard`: dropping null-url
audio entries from the example listing changes nothing, and every song of
the `fetchRock` catalog has a non-empty URL. -/
theorem C10_witness :
    dirToPlaylist c8dir c8entries
      = dirToPlaylist c8dir (c8entries.filter (fun f =>
          !(isAudioFile f && f.download_url.isNone))) ∧
    ∀ pl ∈ catRock, ∀ sg ∈ pl.songs, ¬sg.downloadUrl = "" :=
  ⟨C10_download_url_guard.1 c8dir c8entries,
   C10_download_url_guard.2 fetchRock catRock rfl⟩

example : extractSongTitle "song_one.mp3" = "Song One" := by decide
example : extractSongTitle "Song_Two.FLAC" = "Song Two" := by decide
example : formatPlaylistName "Rock_Hits" = "Rock Hits" := by decide
example : btoa "alice/mymusic" = "YWxpY2UvbXltdXNpYw==" := by decide
example : parseGitHubUrl "https://github.com/alice/mymusic.git" =
    some ("alice", "mymusic") := by decide
example : validGithubUrlFormat "https://github.com/alice/mymusic" = true := by decide
